import Mathlib

/-!
Verification of the measurement-and-aggregation core of `karga-http`
(file `src/karga-http/src/lib.rs`): the `HttpMetric` model, the
`HttpAggregate` engine (`new` / `consume` / `merge`), the
`HttpReport` transform (`impl From<HttpAggregate> for HttpReport`),
and the action-factory construction path (`HttpActionConfig` /
`make_http_action`).

Modelling conventions:
* Rust `u64` / `u16` counters are modelled as `Nat`; the only place the
  source relies on fixed-width wrap-around is the `as u64` cast of
  `Duration::as_nanos()` (a `u128`), which is modelled explicitly as
  `% 2 ^ 64`.
* `hdrhistogram::Histogram<u64>` is modelled at its interface as the
  multiset of recorded values: `record` is fallible (its Rust signature
  returns `Result`), and since the success/failure condition lives inside
  the external crate, the development is parametrised by a predicate
  `recordable : Nat → Bool` deciding which values the histogram accepts.
  `+=` on histograms adds bin counts, i.e. multiset addition.
* `HashMap<u16, u64>` is modelled as `Fin 65536 → Option Nat`
  (`none` = key absent), which identifies Rust maps exactly up to
  `HashMap` equality (key sets and values, no iteration order).
* `f64` arithmetic in the report is modelled by `FloatVal`: exact
  rationals extended with `nan` and `inf`, faithful to IEEE double
  behaviour on the non-negative operands this program produces
  (rounding of in-range quotients is idealised to exact rationals).
-/

/-- A latency histogram (`hdrhistogram::Histogram<u64>`) identified by its
bin contents: the multiset of values recorded into it. -/
abbrev Histogram := Multiset Nat

/-- `Histogram::record`: fallible, per its `Result<(), RecordError>`
signature; which values are accepted is decided by the external crate and
is abstracted into the `recordable` parameter. On success the value's bin
count increases by one; on failure the histogram is unchanged. -/
def Histogram.record (recordable : Nat → Bool) (h : Histogram) (v : Nat) :
    Option Histogram :=
  if recordable v then some (v ::ₘ h) else none

/-- `HashMap<u16, u64>` as a finite map: `none` when the key is absent. -/
abbrev StatusMap := Fin 65536 → Option Nat

/-- `HashMap::new()`. -/
def StatusMap.empty : StatusMap := fun _ => none

/-- `*map.entry(k).or_default() += 1`: insert `0` when absent, then add 1. -/
def StatusMap.bump (m : StatusMap) (k : Fin 65536) : StatusMap :=
  fun j => if j = k then some ((m k).getD 0 + 1) else m j

/-- `*self.entry(k).or_default() += c` for every entry `(k, c)` of `other`
(the body of the status-map loop in `HttpAggregate::merge`). -/
def StatusMap.mergeFrom (self other : StatusMap) : StatusMap :=
  fun k =>
    match other k with
    | none => self k
    | some c => some ((self k).getD 0 + c)

/-- Sum of all values stored in the map (absent keys contribute nothing). -/
def StatusMap.total (m : StatusMap) : Nat :=
  ∑ k, (m k).getD 0

/-- `HttpResponseMetric`: latency in nanoseconds (`Duration` holds up to a
`u128` of nanoseconds, so the latency is an unbounded `Nat` here), status
code (`u16`), bytes sent and received (`u64`). -/
structure HttpResponseMetric where
  latency : Nat
  status_code : Fin 65536
  bytes_sent : Nat
  bytes_received : Nat

/-- `HttpMetric`: a successful response or a failed attempt. -/
inductive HttpMetric where
  | Success (metric : HttpResponseMetric)
  | Failure

/-- `HttpAggregate`: the per-worker accumulator. -/
@[ext]
structure HttpAggregate where
  latency_hist : Histogram
  status_count : StatusMap
  total_bytes_sent : Nat
  total_bytes_received : Nat
  count : Nat
  failure_count : Nat

/-- `HttpAggregate::new()`: empty histogram, empty map, zero counters. -/
def HttpAggregate.new : HttpAggregate where
  latency_hist := 0
  status_count := StatusMap.empty
  total_bytes_sent := 0
  total_bytes_received := 0
  count := 0
  failure_count := 0

/-- `metric.latency.as_nanos() as u64`: the `u128` nanosecond count
truncated to `u64`. -/
def HttpResponseMetric.recordedValue (metric : HttpResponseMetric) : Nat :=
  metric.latency % 2 ^ 64

/-- `HttpAggregate::consume`. On `Success`, record the truncated latency;
if recording errors, increment `failure_count` and return early (the
trailing `self.count += 1` is skipped). Otherwise bump the status count
and the byte totals. On `Failure`, increment `failure_count`. Every path
except the early return then increments `count` once. -/
def HttpAggregate.consume (recordable : Nat → Bool) (self : HttpAggregate)
    (metric : HttpMetric) : HttpAggregate :=
  match metric with
  | HttpMetric.Success metric =>
    match Histogram.record recordable self.latency_hist metric.recordedValue with
    | none =>
      -- early return: only failure_count changed
      { self with failure_count := self.failure_count + 1 }
    | some h =>
      { self with
        latency_hist := h
        status_count := self.status_count.bump metric.status_code
        total_bytes_sent := self.total_bytes_sent + metric.bytes_sent
        total_bytes_received := self.total_bytes_received + metric.bytes_received
        count := self.count + 1 }
  | HttpMetric.Failure =>
    { self with
      failure_count := self.failure_count + 1
      count := self.count + 1 }

/-- `HttpAggregate::merge`: histogram bins add (`+=` on histograms),
status counts add per key, byte totals, failure count and count add. -/
def HttpAggregate.merge (self other : HttpAggregate) : HttpAggregate where
  latency_hist := self.latency_hist + other.latency_hist
  status_count := self.status_count.mergeFrom other.status_count
  total_bytes_sent := self.total_bytes_sent + other.total_bytes_sent
  total_bytes_received := self.total_bytes_received + other.total_bytes_received
  failure_count := self.failure_count + other.failure_count
  count := self.count + other.count

/-- Aggregates reachable from `HttpAggregate::new()` by any sequence of
`consume` and `merge` calls, for a fixed histogram-recordability model. -/
inductive HttpAggregate.Reachable (recordable : Nat → Bool) :
    HttpAggregate → Prop where
  | new : HttpAggregate.Reachable recordable HttpAggregate.new
  | consume {a : HttpAggregate} (m : HttpMetric) :
      HttpAggregate.Reachable recordable a →
      HttpAggregate.Reachable recordable (a.consume recordable m)
  | merge {a b : HttpAggregate} :
      HttpAggregate.Reachable recordable a →
      HttpAggregate.Reachable recordable b →
      HttpAggregate.Reachable recordable (a.merge b)

/-- A recordability model in which the histogram rejects every value,
used to exercise the `Err` branch of `Histogram::record`. -/
def neverRecordable : Nat → Bool := fun _ => false

/-- A recordability model in which the histogram accepts every value
(the behaviour of an auto-resizing histogram that never errors). -/
def alwaysRecordable : Nat → Bool := fun _ => true

/-- How much one `consume` call adds to `count`: 1 on `Failure` and on a
`Success` whose truncated latency the histogram accepts, 0 on the
early-return path. -/
def countIncrement (recordable : Nat → Bool) : HttpMetric → Nat
  | HttpMetric.Success metric => if recordable metric.recordedValue then 1 else 0
  | HttpMetric.Failure => 1

/-- An `f64` value as this program can produce one: `nan`, positive
infinity, or a finite non-negative value idealised as an exact rational.
Negative values and signed zero never arise from the casts of `u64`
counters performed by the report transform, so they are not modelled. -/
inductive FloatVal where
  | nan : FloatVal
  | inf : FloatVal
  | fin : ℚ → FloatVal
deriving DecidableEq

/-- `u64 as f64` (idealised as exact: values above 2^53 round in IEEE,
but no claim under verification depends on that rounding). -/
def FloatVal.ofNat (n : Nat) : FloatVal := FloatVal.fin n

/-- IEEE division on the non-negative values modelled by `FloatVal`:
`0.0 / 0.0 = NaN`, `x / 0.0 = +inf` for `x > 0`, NaN propagates. -/
def FloatVal.div : FloatVal → FloatVal → FloatVal
  | FloatVal.nan, _ => FloatVal.nan
  | _, FloatVal.nan => FloatVal.nan
  | FloatVal.inf, FloatVal.inf => FloatVal.nan
  | FloatVal.inf, FloatVal.fin _ => FloatVal.inf
  | FloatVal.fin _, FloatVal.inf => FloatVal.fin 0
  | FloatVal.fin a, FloatVal.fin b =>
    if b = 0 then (if a = 0 then FloatVal.nan else FloatVal.inf)
    else FloatVal.fin (a / b)

/-- IEEE multiplication on the non-negative values modelled by
`FloatVal`: NaN propagates, `inf * 0.0 = NaN`. -/
def FloatVal.mul : FloatVal → FloatVal → FloatVal
  | FloatVal.nan, _ => FloatVal.nan
  | _, FloatVal.nan => FloatVal.nan
  | FloatVal.inf, FloatVal.inf => FloatVal.inf
  | FloatVal.inf, FloatVal.fin q => if q = 0 then FloatVal.nan else FloatVal.inf
  | FloatVal.fin q, FloatVal.inf => if q = 0 then FloatVal.nan else FloatVal.inf
  | FloatVal.fin a, FloatVal.fin b => FloatVal.fin (a * b)

/-- `mean() as u64`: the `f64` mean cast to `u64` (truncation toward
zero, saturating; the operand is never negative or NaN here because
`hdrhistogram` returns `0.0` for an empty histogram). -/
def FloatVal.toU64 : FloatVal → Nat
  | FloatVal.nan => 0
  | FloatVal.inf => 2 ^ 64 - 1
  | FloatVal.fin q => min (2 ^ 64 - 1) q.floor.toNat

/-- `Histogram::mean()`: arithmetic mean of the recorded values (an
`f64`; `0.0` when the histogram is empty, matching `ℚ` division by 0).
`hdrhistogram` computes it from bucket midpoints within its configured
precision; the claims under verification use it only as a function of
the bins. -/
def Histogram.mean (h : Histogram) : FloatVal :=
  FloatVal.fin ((h.sum : ℚ) / (Multiset.card h : ℚ))

/-- `Histogram::min()`: lowest recorded value (0 when empty). -/
def Histogram.minValue (h : Histogram) : Nat :=
  (h.sort (· ≤ ·)).headD 0

/-- `Histogram::max()`: highest recorded value (0 when empty). -/
def Histogram.maxValue (h : Histogram) : Nat :=
  (h.sort (· ≤ ·)).getLastD 0

/-- `Histogram::value_at_quantile(q)`: the smallest recorded value whose
cumulative count reaches rank `⌈q * count⌉` (the histogram reports it at
its bucket precision; modelled as the exact order statistic). -/
def Histogram.valueAtQuantile (h : Histogram) (q : ℚ) : Nat :=
  ((h.sort (· ≤ ·)).drop ((q * Multiset.card h).ceil.toNat - 1)).headD 0

/-- `HttpLatencyStats`: the six `Duration` fields of the report, each a
nanosecond count (`Duration::from_nanos` takes a `u64`). -/
structure HttpLatencyStats where
  avg : Nat
  min : Nat
  med : Nat
  max : Nat
  p90 : Nat
  p95 : Nat
deriving DecidableEq

/-- `HttpReport`. The source names the percentage field
`req_failure_ratio`; it is renamed `req_failure_percentage` here. -/
structure HttpReport where
  req_duration : HttpLatencyStats
  reqs_total : Nat
  req_failure_percentage : FloatVal
  status_codes : StatusMap
  data_sent : Nat
  data_received : Nat

/-- `impl From<HttpAggregate> for HttpReport`: the report transform. -/
def HttpReport.fromAggregate (value : HttpAggregate) : HttpReport where
  req_duration :=
    { avg := (value.latency_hist.mean).toU64
      min := value.latency_hist.minValue
      med := value.latency_hist.valueAtQuantile (1 / 2)
      max := value.latency_hist.maxValue
      p90 := value.latency_hist.valueAtQuantile (90 / 100)
      p95 := value.latency_hist.valueAtQuantile (95 / 100) }
  reqs_total := value.count
  req_failure_percentage :=
    FloatVal.mul
      (FloatVal.div (FloatVal.ofNat value.failure_count) (FloatVal.ofNat value.count))
      (FloatVal.fin 100)
  status_codes := value.status_count
  data_sent := value.total_bytes_sent
  data_received := value.total_bytes_received

/-- `reqwest::Url` after successful parsing (its internals are opaque to
this core; only identity matters). -/
structure Url where
  raw : String
deriving DecidableEq

/-- `reqwest::header::HeaderMap`, opaque to this core. -/
abbrev Headers := List (String × String)

/-- `reqwest::Body` as the cloneable data payloads this model covers
(a non-rewindable streaming body is not representable here). -/
abbrev Body := String

/-- `HttpActionConfig` after a successful `build()`: the `url` setter has
already parsed its string argument. The `client` handle carries no state
observable by the claims and is omitted. -/
structure HttpActionConfig where
  method : String
  url : Url
  headers : Option Headers
  body : Option Body

/-- `HttpActionConfig::builder()...build()`: the `url` setter runs
`Url::parse(s).expect(..)`, so a string the parser rejects aborts
construction (the panic is modelled as `none`). The development is
parametrised by the external crate's parser `parse`. -/
def HttpActionConfig.build (parse : String → Option Url) (method urlStr : String)
    (headers : Option Headers) (body : Option Body) : Option HttpActionConfig :=
  (parse urlStr).map fun u =>
    { method := method, url := u, headers := headers, body := body }

/-- The request template assembled once by `make_http_action!` from the
config (method and URL cloned in, then headers and body applied). -/
structure HttpRequest where
  method : String
  url : Url
  headers : Option Headers
  body : Option Body

/-- The outcome of one network exchange, as seen by the closure built by
`make_http_action!`: `Ok` with a status code, an advertised
content-length and the elapsed wall-clock nanoseconds, or `Err`. -/
inductive TransportResult where
  | ok (status : Fin 65536) (contentLength : Option Nat) (elapsedNanos : Nat)
  | err

/-- The body of the invocation closure: on `Ok`, a `Success` metric with
the elapsed latency, the response status, `content_length().unwrap_or(0)`
as bytes received and 0 bytes sent; on `Err`, `Failure`. -/
def runHttpAction (_req : HttpRequest) : TransportResult → HttpMetric
  | TransportResult.ok status contentLength elapsedNanos =>
    HttpMetric.Success
      { latency := elapsedNanos
        status_code := status
        bytes_sent := 0
        bytes_received := contentLength.getD 0 }
  | TransportResult.err => HttpMetric.Failure

/-- `make_http_action!`: assemble the request template once from the
config and return the reusable invocation closure. The `build()` and
`try_clone()` expects cannot fail on the data bodies this model covers,
so the assembled template is always produced. -/
def make_http_action (config : HttpActionConfig) :
    Option (TransportResult → HttpMetric) :=
  (some { method := config.method, url := config.url,
          headers := config.headers, body := config.body : HttpRequest }).map
    runHttpAction

/-- The whole construction path of the Action Factory: validate the URL
while building the config, then build the action from the config. -/
def buildHttpAction (parse : String → Option Url) (method urlStr : String)
    (headers : Option Headers) (body : Option Body) :
    Option (TransportResult → HttpMetric) :=
  (HttpActionConfig.build parse method urlStr headers body).bind make_http_action

/-! ### Shared lemmas about the status map and `consume` -/

theorem StatusMap.getD_mergeFrom (m1 m2 : StatusMap) (k : Fin 65536) :
    ((m1.mergeFrom m2) k).getD 0 = (m1 k).getD 0 + (m2 k).getD 0 := by
  unfold StatusMap.mergeFrom
  cases h : m2 k <;> simp [h]

theorem StatusMap.total_mergeFrom (m1 m2 : StatusMap) :
    StatusMap.total (m1.mergeFrom m2) = m1.total + m2.total := by
  unfold StatusMap.total
  rw [← Finset.sum_add_distrib]
  exact Finset.sum_congr rfl fun k _ => StatusMap.getD_mergeFrom m1 m2 k

theorem StatusMap.total_bump (m : StatusMap) (k : Fin 65536) :
    StatusMap.total (m.bump k) = m.total + 1 := by
  unfold StatusMap.total
  rw [← Finset.add_sum_erase Finset.univ (fun j => ((m.bump k) j).getD 0) (Finset.mem_univ k),
      ← Finset.add_sum_erase Finset.univ (fun j => (m j).getD 0) (Finset.mem_univ k)]
  have h1 : ((m.bump k) k).getD 0 = (m k).getD 0 + 1 := by simp [StatusMap.bump]
  have h2 : ∑ j ∈ Finset.univ.erase k, ((m.bump k) j).getD 0
      = ∑ j ∈ Finset.univ.erase k, (m j).getD 0 :=
    Finset.sum_congr rfl fun j hj => by
      simp [StatusMap.bump, Finset.ne_of_mem_erase hj]
  rw [h1, h2]
  omega

theorem StatusMap.total_empty : StatusMap.total StatusMap.empty = 0 :=
  Finset.sum_eq_zero fun _ _ => rfl

theorem StatusMap.mergeFrom_comm (m1 m2 : StatusMap) :
    m1.mergeFrom m2 = m2.mergeFrom m1 := by
  funext j
  unfold StatusMap.mergeFrom
  cases h1 : m1 j <;> cases h2 : m2 j <;> simp [h1, h2, Nat.add_comm]

theorem StatusMap.mergeFrom_assoc (m1 m2 m3 : StatusMap) :
    (m1.mergeFrom m2).mergeFrom m3 = m1.mergeFrom (m2.mergeFrom m3) := by
  funext j
  unfold StatusMap.mergeFrom
  cases h1 : m1 j <;> cases h2 : m2 j <;> cases h3 : m3 j <;> simp [h1, h2, h3, Nat.add_assoc]

theorem StatusMap.mergeFrom_empty_right (m : StatusMap) :
    m.mergeFrom StatusMap.empty = m := by
  funext j
  simp [StatusMap.mergeFrom, StatusMap.empty]

theorem consume_failure_eq (recordable : Nat → Bool) (a : HttpAggregate) :
    a.consume recordable HttpMetric.Failure
      = { a with failure_count := a.failure_count + 1, count := a.count + 1 } := rfl

theorem consume_recorded_eq (recordable : Nat → Bool) (a : HttpAggregate)
    (r : HttpResponseMetric) (h : recordable r.recordedValue = true) :
    a.consume recordable (HttpMetric.Success r)
      = { a with
          latency_hist := r.recordedValue ::ₘ a.latency_hist
          status_count := a.status_count.bump r.status_code
          total_bytes_sent := a.total_bytes_sent + r.bytes_sent
          total_bytes_received := a.total_bytes_received + r.bytes_received
          count := a.count + 1 } := by
  simp [HttpAggregate.consume, Histogram.record, h]

theorem consume_unrecordable_eq (recordable : Nat → Bool) (a : HttpAggregate)
    (r : HttpResponseMetric) (h : recordable r.recordedValue = false) :
    a.consume recordable (HttpMetric.Success r)
      = { a with failure_count := a.failure_count + 1 } := by
  simp [HttpAggregate.consume, Histogram.record, h]

/-- A concrete successful measurement used to instantiate theorems:
zero latency, status 200, no bytes either way. -/
def probeMetric : HttpResponseMetric where
  latency := 0
  status_code := 200
  bytes_sent := 0
  bytes_received := 0

/-! ### Claims -/

/-- C1 (counterexample): it is not the case that every `consume` call
increases `count` by exactly 1 — on a `Success` whose latency the
histogram rejects, `consume` returns early and `count` is unchanged. -/
theorem consume_count_cex :
    (HttpAggregate.new.consume neverRecordable (HttpMetric.Success probeMetric)).count
      ≠ HttpAggregate.new.count + 1 := by
  have h := consume_unrecordable_eq neverRecordable HttpAggregate.new probeMetric rfl
  rw [h]
  simp [HttpAggregate.new]

/-- C1 (amended): each `consume` call adds to `count` exactly
`countIncrement`: 1 for a `Failure` or a `Success` whose truncated
latency the histogram accepts, and 0 for a `Success` whose latency the
histogram rejects (the early-return path leaves `count` unchanged). -/
theorem consume_count_increment (recordable : Nat → Bool) (a : HttpAggregate)
    (m : HttpMetric) :
    (a.consume recordable m).count = a.count + countIncrement recordable m := by
  cases m with
  | Failure => rfl
  | Success r =>
    cases hr : recordable r.recordedValue with
    | true => rw [consume_recorded_eq recordable a r hr]; simp [countIncrement, hr]
    | false => rw [consume_unrecordable_eq recordable a r hr]; simp [countIncrement, hr]

/-- C2 (counterexample): a state reachable from `new()` by one `consume`
of a `Success` whose latency the histogram rejects violates
`count == failure_count + sum of status_count values`
(it has `count = 0` but `failure_count = 1` and an empty map). -/
theorem status_accounting_cex :
    HttpAggregate.Reachable neverRecordable
        (HttpAggregate.new.consume neverRecordable (HttpMetric.Success probeMetric))
      ∧ (HttpAggregate.new.consume neverRecordable (HttpMetric.Success probeMetric)).count
          ≠ (HttpAggregate.new.consume neverRecordable
                (HttpMetric.Success probeMetric)).failure_count
            + StatusMap.total (HttpAggregate.new.consume neverRecordable
                (HttpMetric.Success probeMetric)).status_count := by
  refine ⟨HttpAggregate.Reachable.consume _ HttpAggregate.Reachable.new, ?_⟩
  have hc : (HttpAggregate.new.consume neverRecordable
      (HttpMetric.Success probeMetric)).count = 0 := rfl
  have hf : (HttpAggregate.new.consume neverRecordable
      (HttpMetric.Success probeMetric)).failure_count = 1 := rfl
  have hs : (HttpAggregate.new.consume neverRecordable
      (HttpMetric.Success probeMetric)).status_count = StatusMap.empty := rfl
  rw [hc, hf, hs, StatusMap.total_empty]
  omega

/-- C2 (amended): for every aggregate reachable from `new()` by `consume`
and `merge`, `count ≤ failure_count + sum of status_count values`; the
claimed equality holds whenever the histogram accepts every value (i.e.
no `consume` ever takes the record-failure early return, which skips the
`count` increment while still incrementing `failure_count`). -/
theorem status_accounting_reachable (recordable : Nat → Bool) (a : HttpAggregate)
    (h : HttpAggregate.Reachable recordable a) :
    a.count ≤ a.failure_count + StatusMap.total a.status_count
      ∧ ((∀ v, recordable v = true) →
          a.count = a.failure_count + StatusMap.total a.status_count) := by
  induction h with
  | new =>
    have hsc : HttpAggregate.new.status_count = StatusMap.empty := rfl
    have h0 : StatusMap.total HttpAggregate.new.status_count = 0 := by
      rw [hsc, StatusMap.total_empty]
    have h1 : HttpAggregate.new.count = 0 := rfl
    have h2 : HttpAggregate.new.failure_count = 0 := rfl
    exact ⟨by omega, fun _ => by omega⟩
  | consume m _ha ih =>
    cases m with
    | Failure =>
      rw [consume_failure_eq]
      refine ⟨?_, fun hall => ?_⟩
      · have h1 := ih.1
        simp only []
        omega
      · have h1 := ih.2 hall
        simp only []
        omega
    | Success r =>
      cases hr : recordable r.recordedValue with
      | true =>
        rw [consume_recorded_eq _ _ r hr]
        refine ⟨?_, fun hall => ?_⟩
        · have h1 := ih.1
          simp [StatusMap.total_bump]
          omega
        · have h1 := ih.2 hall
          simp [StatusMap.total_bump]
          omega
      | false =>
        rw [consume_unrecordable_eq _ _ r hr]
        refine ⟨?_, fun hall => ?_⟩
        · have h1 := ih.1
          simp only []
          omega
        · have h2 := hall r.recordedValue
          rw [hr] at h2
          exact absurd h2 (by simp)
  | merge _ha _hb iha ihb =>
    refine ⟨?_, fun hall => ?_⟩
    · have h1 := iha.1
      have h2 := ihb.1
      simp [HttpAggregate.merge, StatusMap.total_mergeFrom]
      omega
    · have h1 := iha.2 hall
      have h2 := ihb.2 hall
      simp [HttpAggregate.merge, StatusMap.total_mergeFrom]
      omega

/-- C2 (witness): the amended invariant evaluated at the concrete state
reached by consuming one `Failure` from `new()` under an
always-accepting histogram. -/
theorem status_accounting_witness :
    (HttpAggregate.new.consume alwaysRecordable HttpMetric.Failure).count
      = (HttpAggregate.new.consume alwaysRecordable HttpMetric.Failure).failure_count
        + StatusMap.total (HttpAggregate.new.consume alwaysRecordable
            HttpMetric.Failure).status_count :=
  (status_accounting_reachable alwaysRecordable _
      (HttpAggregate.Reachable.consume HttpMetric.Failure
        HttpAggregate.Reachable.new)).2 (fun _ => rfl)

/-- C3: `merge` is associative and commutative field-for-field: tree shape
and pairwise order of merges do not affect histogram bin counts, the
status-count map, byte totals, `failure_count` or `count`. -/
theorem merge_assoc_comm (a b c : HttpAggregate) :
    (a.merge b).merge c = a.merge (b.merge c) ∧ a.merge b = b.merge a := by
  constructor
  · refine HttpAggregate.ext ?_ ?_ ?_ ?_ ?_ ?_
    · exact add_assoc a.latency_hist b.latency_hist c.latency_hist
    · exact StatusMap.mergeFrom_assoc a.status_count b.status_count c.status_count
    · exact Nat.add_assoc _ _ _
    · exact Nat.add_assoc _ _ _
    · exact Nat.add_assoc _ _ _
    · exact Nat.add_assoc _ _ _
  · refine HttpAggregate.ext ?_ ?_ ?_ ?_ ?_ ?_
    · exact add_comm a.latency_hist b.latency_hist
    · exact StatusMap.mergeFrom_comm a.status_count b.status_count
    · exact Nat.add_comm _ _
    · exact Nat.add_comm _ _
    · exact Nat.add_comm _ _
    · exact Nat.add_comm _ _

/-- C4: a fresh `HttpAggregate::new()` (empty histogram, empty status
map, zero counters) merged into any aggregate leaves it unchanged. -/
theorem merge_new_right_identity (a : HttpAggregate) :
    a.merge HttpAggregate.new = a := by
  refine HttpAggregate.ext ?_ ?_ ?_ ?_ ?_ ?_
  · exact add_zero a.latency_hist
  · exact StatusMap.mergeFrom_empty_right a.status_count
  · exact Nat.add_zero _
  · exact Nat.add_zero _
  · exact Nat.add_zero _
  · exact Nat.add_zero _

/-- C5: a `Success` whose latency the histogram cannot record is
downgraded to a failure: only `failure_count` is incremented; the
histogram, the status map, both byte totals and `count` are all
unchanged. -/
theorem consume_unrecordable_only_failure (recordable : Nat → Bool)
    (a : HttpAggregate) (r : HttpResponseMetric)
    (h : recordable r.recordedValue = false) :
    a.consume recordable (HttpMetric.Success r)
      = { a with failure_count := a.failure_count + 1 } :=
  consume_unrecordable_eq recordable a r h

/-- C5 (witness): evaluated at `new()` and a concrete rejected metric. -/
theorem consume_unrecordable_only_failure_witness :
    HttpAggregate.new.consume neverRecordable (HttpMetric.Success probeMetric)
      = { HttpAggregate.new with
          failure_count := HttpAggregate.new.failure_count + 1 } :=
  consume_unrecordable_only_failure neverRecordable HttpAggregate.new probeMetric rfl

/-- C8: consuming the `Failure` variant increments exactly
`failure_count` and `count`; the histogram, the status map and both byte
totals are unchanged. -/
theorem consume_failure_frame (recordable : Nat → Bool) (a : HttpAggregate) :
    a.consume recordable HttpMetric.Failure
      = { a with
          failure_count := a.failure_count + 1
          count := a.count + 1 } :=
  consume_failure_eq recordable a

/-- C10: the value `consume` submits to the histogram is the nanosecond
latency reduced modulo `2 ^ 64` (the `as u64` truncation of
`Duration::as_nanos()`), so `consume` behaves identically on a latency
and on its wrap-around residue: a latency of `2 ^ 64` ns or more is
wrapped silently, never handled as its true value. -/
theorem consume_latency_truncated (recordable : Nat → Bool) (a : HttpAggregate)
    (lat : Nat) (sc : Fin 65536) (bs br : Nat) :
    a.consume recordable
        (HttpMetric.Success
          { latency := lat, status_code := sc, bytes_sent := bs, bytes_received := br })
      = a.consume recordable
          (HttpMetric.Success
            { latency := lat % 2 ^ 64, status_code := sc,
              bytes_sent := bs, bytes_received := br }) := by
  have h : ({ latency := lat % 2 ^ 64, status_code := sc, bytes_sent := bs,
              bytes_received := br } : HttpResponseMetric).recordedValue
      = ({ latency := lat, status_code := sc, bytes_sent := bs,
           bytes_received := br } : HttpResponseMetric).recordedValue := by
    unfold HttpResponseMetric.recordedValue
    exact Nat.mod_mod_of_dvd lat dvd_rfl
  simp only [HttpAggregate.consume, h]

/-- An aggregate with two consumed requests, one of them failed, used to
instantiate report theorems. -/
def halfFailedAggregate : HttpAggregate :=
  { HttpAggregate.new with count := 2, failure_count := 1 }

/-- C6: the report computes the failure percentage as
`failure_count / count * 100` in `f64`, with no guard for `count == 0`:
for nonzero `count` the value is the exact quotient times 100, and for
`count == 0` the unguarded IEEE division yields NaN (when
`failure_count == 0`) or +infinity (otherwise). -/
theorem report_failure_percentage_formula (a : HttpAggregate) :
    (a.count ≠ 0 →
      (HttpReport.fromAggregate a).req_failure_percentage
        = FloatVal.fin ((a.failure_count : ℚ) / (a.count : ℚ) * 100))
  ∧ (a.count = 0 →
      (HttpReport.fromAggregate a).req_failure_percentage
        = if a.failure_count = 0 then FloatVal.nan else FloatVal.inf) := by
  constructor
  · intro h
    have hc : ((a.count : ℚ)) ≠ 0 := Nat.cast_ne_zero.mpr h
    simp [HttpReport.fromAggregate, FloatVal.ofNat, FloatVal.div, FloatVal.mul, hc]
  · intro h
    by_cases hf : a.failure_count = 0
    · simp [HttpReport.fromAggregate, FloatVal.ofNat, FloatVal.div, FloatVal.mul, h, hf]
    · have hfq : ((a.failure_count : ℚ)) ≠ 0 := Nat.cast_ne_zero.mpr hf
      simp [HttpReport.fromAggregate, FloatVal.ofNat, FloatVal.div, FloatVal.mul, h, hf, hfq]

/-- C6 (witness): with 1 failure out of 2 requests the report carries
50.0; with the zero-count fresh aggregate it carries NaN. -/
theorem report_failure_percentage_formula_witness :
    (HttpReport.fromAggregate halfFailedAggregate).req_failure_percentage
        = FloatVal.fin 50
      ∧ (HttpReport.fromAggregate HttpAggregate.new).req_failure_percentage
        = FloatVal.nan := by
  constructor
  · have h := (report_failure_percentage_formula halfFailedAggregate).1 (by decide)
    rw [h]
    norm_num [halfFailedAggregate]
  · have h := (report_failure_percentage_formula HttpAggregate.new).2 rfl
    rw [h]
    simp [HttpAggregate.new]

/-- C7: the report transform is a pure function of the aggregate's
fields: two aggregates equal field-for-field produce reports identical
in every field, so repeating the transform on equal-valued finished
aggregates yields identical reports. -/
theorem report_deterministic (a b : HttpAggregate)
    (h1 : a.latency_hist = b.latency_hist)
    (h2 : a.status_count = b.status_count)
    (h3 : a.total_bytes_sent = b.total_bytes_sent)
    (h4 : a.total_bytes_received = b.total_bytes_received)
    (h5 : a.count = b.count)
    (h6 : a.failure_count = b.failure_count) :
    HttpReport.fromAggregate a = HttpReport.fromAggregate b := by
  unfold HttpReport.fromAggregate
  rw [h1, h2, h3, h4, h5, h6]

/-- C7 (witness): the transform applied twice to the same finished
aggregate yields identical reports. -/
theorem report_deterministic_witness :
    HttpReport.fromAggregate halfFailedAggregate
      = HttpReport.fromAggregate halfFailedAggregate :=
  report_deterministic halfFailedAggregate halfFailedAggregate rfl rfl rfl rfl rfl rfl

/-- C9: a URL string the parser rejects makes Action Factory
construction fail (no action unit is returned), while a string the
parser accepts yields the invocation closure over the pre-parsed URL —
a total function of the transport outcome, which therefore can never
fail at invocation time for URL reasons. -/
theorem action_url_validated (parse : String → Option Url)
    (method urlStr : String) (headers : Option Headers) (body : Option Body) :
    (parse urlStr = none →
      buildHttpAction parse method urlStr headers body = none)
  ∧ (∀ u, parse urlStr = some u →
      buildHttpAction parse method urlStr headers body
        = some (runHttpAction
            { method := method, url := u, headers := headers, body := body })) := by
  constructor
  · intro h
    simp [buildHttpAction, HttpActionConfig.build, h]
  · intro u h
    simp [buildHttpAction, HttpActionConfig.build, make_http_action, h]

/-- A concrete URL parser model accepting exactly one string. -/
def demoUrlParse : String → Option Url :=
  fun s => if s = "http://example.test/" then some { raw := s } else none

/-- C9 (witness): under the concrete parser, an unparseable string fails
construction and the accepted string yields the invocation closure. -/
theorem action_url_validated_witness :
    buildHttpAction demoUrlParse "GET" "not a url" none none = none
  ∧ buildHttpAction demoUrlParse "GET" "http://example.test/" none none
      = some (runHttpAction
          { method := "GET", url := { raw := "http://example.test/" },
            headers := none, body := none }) := by
  constructor
  · exact (action_url_validated demoUrlParse "GET" "not a url" none none).1 (by decide)
  · exact (action_url_validated demoUrlParse "GET" "http://example.test/" none none).2
      { raw := "http://example.test/" } (by decide)
